import Mathlib

/-!
Shallow embedding of the license-validation client of LerianStudio/lib-license-go.

The embedding follows the Go source:
* model/ValidationResult                     -> ValidationResult
* error/APIError, IsConnectionError          -> GoError, asAPIError, isConnectionError
* internal/api/client.go ValidateLicense     -> validateLicensePure / validateLicense
  (for a temporary single-organization config, which is how the validation
  client always invokes it)
* internal/cache/cache.go Manager            -> the cache / lastResult fields of St,
  with Store / Get / GetLastResult as assocPut / assocGet / the lastResult field
* validation/client.go (current variant)     -> handleAPIError, validateAndHandleForOrg,
  ValidateWithOrgID, validateAndHandleAllOrgs
* the historical multi-org variant (validateAllOrganizations and its
  handleAPIError with the multi-org guard)   -> validateAllOrganizations,
  handleAPIErrorMultiOrg, validateSingleOrganization
* internal/refresh/background.go             -> RefreshManager.Start / RefreshManager.Shutdown
* internal/shutdown/termination.go           -> ShutdownManager.SetHandler / ShutdownManager.Terminate
* middleware/client.go validateOrganizationID-> validateOrganizationID
* validation/client.go ValidateWithRetry     -> ValidateWithRetry

Side effects (network calls, cache writes, refresher shutdowns, termination
requests) are made explicit as trace fields of the state St, so that the
theorems can speak about which effects each code path performs.
-/

/-- Verdict for one scope, mirroring model.ValidationResult
(fields valid, expiryDaysLeft, activeGracePeriod, isTrial). -/
structure ValidationResult where
  valid : Bool
  expiryDaysLeft : Int
  activeGracePeriod : Bool
  isTrial : Bool
deriving DecidableEq, Repr

/-- The Go zero value model.ValidationResult\x7b\x7d. -/
def zeroResult : ValidationResult :=
  { valid := false, expiryDaysLeft := 0, activeGracePeriod := false, isTrial := false }

/-- constant.FallbackExpiryDaysLeft. -/
def FallbackExpiryDaysLeft : Int := 7

/-- The synthetic fallback verdict built by handleAPIError (and by the
multi-org loop) when the server answers 5xx and no cached result exists. -/
def syntheticResult : ValidationResult :=
  { valid := true, expiryDaysLeft := FallbackExpiryDaysLeft,
    activeGracePeriod := true, isTrial := false }

/-- Go errors as the validation client observes them: an APIError value
(detected by type assertion), an error classified as a connection error by
libErr.IsConnectionError, any other error, or a fmt.Errorf wrapping. -/
inductive GoError where
  | apiError (statusCode : Nat) (msg : String)
  | connError (msg : String)
  | otherError (msg : String)
  | wrapped (context : String) (inner : GoError)
deriving DecidableEq, Repr

/-- The type assertion err.(*libErr.APIError): it does not unwrap. -/
def asAPIError : GoError → Option (Nat × String)
  | GoError.apiError code msg => some (code, msg)
  | _ => none

/-- libErr.IsConnectionError: matches connection-flavoured errors, also
through fmt.Errorf wrappings (the Go code checks the rendered message and
unwraps recursively). -/
def isConnectionError : GoError → Bool
  | GoError.connError _ => true
  | GoError.wrapped _ inner => isConnectionError inner
  | _ => false

/-- Rendering of an error, mirroring Error() implementations. -/
def renderGoError : GoError → String
  | GoError.apiError _ msg => msg
  | GoError.connError msg => msg
  | GoError.otherError msg => msg
  | GoError.wrapped c inner => c ++ ": " ++ renderGoError inner

/-- The reasons passed to the termination manager, kept structured; the
exact strings the Go code builds are recovered by renderReason. -/
inductive TermReason where
  | clientError (msg : String)
  | noValid
  | composite (entries : List (String × GoError))
deriving DecidableEq, Repr

/-- The reason string the Go code passes to Terminate. -/
def renderReason : TermReason → String
  | TermReason.clientError msg =>
      "License validation failed with client error: " ++ msg
  | TermReason.noValid =>
      "No valid licenses found for any configured organization"
  | TermReason.composite entries =>
      "All license validations failed: [" ++
        String.intercalate "; "
          (entries.map (fun p => "org " ++ p.1 ++ ": " ++ renderGoError p.2)) ++ "]"

/-- Association list get, mirroring cache.Manager.Get for non-expired
entries (an expired entry is modelled as absent from the list). -/
def assocGet : List (String × ValidationResult) → String → Option ValidationResult
  | [], _ => none
  | p :: rest, k => if p.1 = k then some p.2 else assocGet rest k

/-- Association list put, mirroring cache.Manager.Store writing the entry
for one key. -/
def assocPut : List (String × ValidationResult) → String → ValidationResult →
    List (String × ValidationResult)
  | [], k, v => [(k, v)]
  | p :: rest, k, v => if p.1 = k then (k, v) :: rest else p :: assocPut rest k v

/-- Client state plus an explicit effect trace.
cache and lastResult embed cache.Manager (entries keyed by organization ID,
and the single TTL-independent cachedValue slot that Store overwrites and
GetLastResult reads). netCalls records every outbound verification call,
stores every argument ever passed to Store, terms every reason passed to
the shutdown manager, refreshShutdowns counts refreshManager.Shutdown calls. -/
structure St where
  cache : List (String × ValidationResult)
  lastResult : Option ValidationResult
  netCalls : List String
  stores : List (String × ValidationResult)
  terms : List TermReason
  refreshShutdowns : Nat
deriving DecidableEq, Repr

/-- The state of a freshly constructed client: empty cache, no fallback
value, no effects yet. -/
def initSt : St :=
  { cache := [], lastResult := none, netCalls := [], stores := [],
    terms := [], refreshShutdowns := 0 }

/-- cache.Manager.Get on the state. -/
def cacheGet (s : St) (orgID : String) : Option ValidationResult :=
  assocGet s.cache orgID

/-- cache.Manager.Store: writes the TTL entry and overwrites the single
shared cachedValue fallback slot; the store call is recorded in the trace. -/
def storeC (s : St) (orgID : String) (r : ValidationResult) : St :=
  { s with cache := assocPut s.cache orgID r, lastResult := some r,
           stores := s.stores ++ [(orgID, r)] }

/-- Record one outbound network call of the remote verifier. -/
def netCallEff (s : St) (orgID : String) : St :=
  { s with netCalls := s.netCalls ++ [orgID] }

/-- shutdownManager.Terminate(reason): recorded in the trace. -/
def terminateEff (s : St) (reason : TermReason) : St :=
  { s with terms := s.terms ++ [reason] }

/-- refreshManager.Shutdown() as seen from the validation client. -/
def shutdownRefreshEff (s : St) : St :=
  { s with refreshShutdowns := s.refreshShutdowns + 1 }

/-- Outcome of the single HTTP verification call for one organization ID:
a 200 answer with a decoded body, a non-200 status, or a transport-level
failure (split by whether IsConnectionError classifies it as such). -/
inductive HTTPOutcome where
  | ok (r : ValidationResult)
  | httpStatus (code : Nat)
  | connFailure (msg : String)
  | otherFailure (msg : String)
deriving DecidableEq, Repr

/-- The remote authority, as a map from organization ID to response. -/
def Env : Type := String → HTTPOutcome

/-- api.Client.handleErrorResponse: classify a non-200 status into an
APIError value. -/
def handleErrorResponse (code : Nat) : GoError :=
  if 500 ≤ code ∧ code < 600 then GoError.apiError code ("server error: " ++ toString code)
  else if 400 ≤ code ∧ code < 500 then GoError.apiError code ("client error: " ++ toString code)
  else GoError.apiError code ("unexpected error: " ++ toString code)

/-- api.Client.validateForOrganization, result part: one verification call
for one organization ID. Transport failures come back wrapped as
"request failed: ..." errors. -/
def verifyOutcome (env : Env) (orgID : String) : Except GoError ValidationResult :=
  match env orgID with
  | HTTPOutcome.ok r => Except.ok r
  | HTTPOutcome.httpStatus code => Except.error (handleErrorResponse code)
  | HTTPOutcome.connFailure msg => Except.error (GoError.connError ("request failed: " ++ msg))
  | HTTPOutcome.otherFailure msg => Except.error (GoError.otherError ("request failed: " ++ msg))

/-- api.Client.ValidateLicense for a single-organization config (the
validation client always builds a temporary config with exactly one
organization ID): on a usable verdict return it with a nil error, otherwise
return the zero value together with the last error, which is nil when the
call decoded fine but the verdict was unusable. -/
def validateLicensePure (env : Env) (orgID : String) : ValidationResult × Option GoError :=
  match verifyOutcome env orgID with
  | Except.ok r =>
      if r.valid || r.activeGracePeriod then (r, none) else (zeroResult, none)
  | Except.error e => (zeroResult, some e)

/-- Stateful wrapper of ValidateLicense: records the network call. -/
def validateLicense (env : Env) (s : St) (orgID : String) :
    ValidationResult × Option GoError × St :=
  ((validateLicensePure env orgID).1, (validateLicensePure env orgID).2, netCallEff s orgID)

/-- The tail of handleAPIError shared by both client variants: the
IsConnectionError fallback and the final wrapped-error return. -/
def handleConnOrOther (s : St) (e : GoError) : ValidationResult × Option GoError × St :=
  if isConnectionError e then
    match s.lastResult with
    | some r => (r, none, s)
    | none => (zeroResult, some (GoError.wrapped "failed to validate license" e), s)
  else (zeroResult, some (GoError.wrapped "failed to validate license" e), s)

/-- validation/client.go handleAPIError: 5xx falls back to GetLastResult or
the synthetic verdict; 4xx shuts the refresher down, terminates, and then
falls through to the generic return; everything else falls through. -/
def handleAPIError (s : St) (e : GoError) : ValidationResult × Option GoError × St :=
  match asAPIError e with
  | some (code, msg) =>
      if 500 ≤ code ∧ code < 600 then
        match s.lastResult with
        | some r => (r, none, s)
        | none => (syntheticResult, none, s)
      else if 400 ≤ code ∧ code < 500 then
        handleConnOrOther (terminateEff (shutdownRefreshEff s) (TermReason.clientError msg)) e
      else handleConnOrOther s e
  | none => handleConnOrOther s e

/-- validation/client.go validateAndHandleForOrg: validate one organization
ID; on error delegate to handleAPIError, otherwise store the result (even
the unusable zero value ValidateLicense can return with a nil error). -/
def validateAndHandleForOrg (env : Env) (s : St) (orgID : String) :
    ValidationResult × Option GoError × St :=
  match validateLicense env s orgID with
  | (res, none, s2) => (res, none, storeC s2 orgID res)
  | (_, some e, s2) => handleAPIError s2 e

/-- util.ContainsOrganizationID / pkg.ContainsOrganizationID:
slices.Contains on the configured list. -/
def ContainsOrganizationID (orgIDs : List String) (orgID : String) : Bool :=
  orgIDs.contains orgID

/-- validation/client.go ValidateWithOrgID: reject organization IDs outside
the configured list, then cache-check, then fall through to a single-scope
validation. -/
def ValidateWithOrgID (env : Env) (cfg : List String) (s : St) (orgID : String) :
    ValidationResult × Option GoError × St :=
  if ContainsOrganizationID cfg orgID then
    match cacheGet s orgID with
    | some r => (r, none, s)
    | none => validateAndHandleForOrg env s orgID
  else
    (zeroResult,
     some (GoError.otherError ("organization ID " ++ orgID ++ " is not in the allowed list")),
     s)

/-- The loop body state of validateAndHandleAllOrgs: anyValid,
lastValidResult and lastErr threaded through the organization list. -/
def allOrgsLoop (env : Env) : List String → St → Bool → ValidationResult →
    Option GoError → St × Bool × ValidationResult × Option GoError
  | [], s, anyValid, lastValid, lastErr => (s, anyValid, lastValid, lastErr)
  | orgID :: rest, s, anyValid, lastValid, lastErr =>
      match validateAndHandleForOrg env s orgID with
      | (r, none, s2) =>
          if r.valid || r.activeGracePeriod || r.isTrial then
            allOrgsLoop env rest s2 true r lastErr
          else
            allOrgsLoop env rest s2 anyValid lastValid none
      | (_, some e, s2) => allOrgsLoop env rest s2 anyValid lastValid (some e)

/-- validation/client.go validateAndHandleAllOrgs: validate every
configured organization; if none is usable, shut the refresher down and
terminate with the fixed no-valid-licenses reason. -/
def validateAndHandleAllOrgs (env : Env) (cfg : List String) (s : St) :
    ValidationResult × Option GoError × St :=
  if cfg.isEmpty then
    (zeroResult, some (GoError.otherError "no organization IDs configured"), s)
  else
    match allOrgsLoop env cfg s false zeroResult none with
    | (s2, anyValid, lastValid, lastErr) =>
        if anyValid then (lastValid, none, s2)
        else
          (zeroResult, lastErr,
           terminateEff (shutdownRefreshEff s2) TermReason.noValid)

/-- The multi-org variant of handleAPIError (historical validation client,
validateAllOrganizations file): identical to handleAPIError except that a
4xx with more than one configured organization is returned to the caller
instead of terminating. -/
def handleAPIErrorMultiOrg (cfg : List String) (s : St) (e : GoError) :
    ValidationResult × Option GoError × St :=
  match asAPIError e with
  | some (code, msg) =>
      if 500 ≤ code ∧ code < 600 then
        match s.lastResult with
        | some r => (r, none, s)
        | none => (syntheticResult, none, s)
      else if 400 ≤ code ∧ code < 500 then
        if cfg.length > 1 then (zeroResult, some e, s)
        else
          handleConnOrOther (terminateEff (shutdownRefreshEff s) (TermReason.clientError msg)) e
      else handleConnOrOther s e
  | none => handleConnOrOther s e

/-- validateSingleOrganization of the historical variant: validate one
organization and handle the outcome (store on success, classify on error). -/
def validateSingleOrganization (env : Env) (cfg : List String) (s : St) (orgID : String) :
    ValidationResult × Option GoError × St :=
  match validateLicense env s orgID with
  | (res, none, s2) => (res, none, storeC s2 orgID res)
  | (_, some e, s2) => handleAPIErrorMultiOrg cfg s2 e

/-- Loop of validateAllOrganizations: a 5xx for one organization stores the
synthetic verdict and counts that organization as valid; a usable verdict
is stored and counted; any other error is collected (with its organization
ID) for the composite failure message; an error-free unusable verdict is
only logged. -/
def allOrganizationsLoop (env : Env) : List String → St → Bool → ValidationResult →
    List (String × GoError) → St × Bool × ValidationResult × List (String × GoError)
  | [], s, anyValid, lastValid, errs => (s, anyValid, lastValid, errs)
  | orgID :: rest, s, anyValid, lastValid, errs =>
      match validateLicense env s orgID with
      | (result, err, s2) =>
          match err with
          | some e =>
              match asAPIError e with
              | some (code, _) =>
                  if 500 ≤ code ∧ code < 600 then
                    allOrganizationsLoop env rest (storeC s2 orgID syntheticResult)
                      true syntheticResult errs
                  else
                    allOrganizationsLoop env rest s2 anyValid lastValid (errs ++ [(orgID, e)])
              | none =>
                  allOrganizationsLoop env rest s2 anyValid lastValid (errs ++ [(orgID, e)])
          | none =>
              if result.valid || result.activeGracePeriod || result.isTrial then
                allOrganizationsLoop env rest (storeC s2 orgID result) true result errs
              else
                allOrganizationsLoop env rest s2 anyValid lastValid errs

/-- constant.ErrNoOrganizationIDs. -/
def ErrNoOrganizationIDs : GoError := GoError.otherError "LCS-0002"

/-- constant.GlobalPluginValue. -/
def GlobalPluginValue : String := "global"

/-- validateAllOrganizations of the historical multi-org variant: global
mode delegates to a single validation of the global scope; otherwise every
configured organization is validated, errors are collected, and only when
no organization ends usable does the client shut the refresher down and
terminate once with the composed message. -/
def validateAllOrganizations (env : Env) (cfg : List String) (isGlobal : Bool) (s : St) :
    ValidationResult × Option GoError × St :=
  if cfg.isEmpty then (zeroResult, some ErrNoOrganizationIDs, s)
  else if isGlobal then validateSingleOrganization env cfg s GlobalPluginValue
  else
    match allOrganizationsLoop env cfg s false zeroResult [] with
    | (s2, anyValid, lastValid, errs) =>
        if anyValid then (lastValid, none, s2)
        else
          let reason := if errs.isEmpty then TermReason.noValid else TermReason.composite errs
          (zeroResult, some (GoError.otherError (renderReason reason)),
           terminateEff (shutdownRefreshEff s2) reason)

/-- internal/refresh/background.go Manager: started flag, cancel function
presence, plus trace fields counting the running refresh tasks and the
cancel() invocations. -/
structure RefreshManager where
  started : Bool
  hasCancel : Bool
  running : Nat
  cancels : Nat
deriving DecidableEq, Repr

/-- refresh.New: not yet started, no cancel function, no task running. -/
def RefreshManager.new : RefreshManager :=
  { started := false, hasCancel := false, running := 0, cancels := 0 }

/-- Manager.Start: a second call while started returns without doing
anything; otherwise install the cancel function, mark started, and spawn
the one refresh goroutine. -/
def RefreshManager.Start (m : RefreshManager) : RefreshManager :=
  if m.started then m
  else { m with started := true, hasCancel := true, running := m.running + 1 }

/-- Manager.Shutdown: a call while not started returns without doing
anything; otherwise invoke and clear the cancel function (the refresh task
exits on the cancelled context) and clear started. -/
def RefreshManager.Shutdown (m : RefreshManager) : RefreshManager :=
  if m.started then
    { started := false, hasCancel := false, running := m.running - 1,
      cancels := m.cancels + (if m.hasCancel then 1 else 0) }
  else m

/-- A call sequence against the refresh manager. -/
inductive RefreshOp where
  | start
  | shutdown
deriving DecidableEq, Repr

/-- Run a sequence of Start/Shutdown calls from a state. -/
def runRefreshOps (m : RefreshManager) : List RefreshOp → RefreshManager
  | [] => m
  | RefreshOp.start :: rest => runRefreshOps m.Start rest
  | RefreshOp.shutdown :: rest => runRefreshOps m.Shutdown rest

/-- What a termination handler does with the reason, observable. -/
inductive TermAct where
  | panicked (msg : String)
  | acted (tag : Nat) (reason : String)

/-- shutdown.Handler. -/
def Handler : Type := String → TermAct

/-- shutdown.DefaultHandler: panics with the descriptive message. -/
def DefaultHandler : Handler :=
  fun reason => TermAct.panicked ("LICENSE VALIDATION FAILED: " ++ reason)

/-- internal/shutdown/termination.go Manager: the handler slot; none models
a nil Go function value. -/
structure ShutdownManager where
  handler : Option Handler

/-- shutdown.New: constructed with the default handler installed. -/
def ShutdownManager.new : ShutdownManager :=
  { handler := some DefaultHandler }

/-- Manager.SetHandler: a nil handler is ignored, otherwise replace. -/
def ShutdownManager.SetHandler (m : ShutdownManager) (h : Option Handler) : ShutdownManager :=
  match h with
  | none => m
  | some f => { handler := some f }

/-- Manager.Terminate: invoke the current handler with the reason (none
would model calling a nil Go function, which would crash). -/
def ShutdownManager.Terminate (m : ShutdownManager) (reason : String) : Option TermAct :=
  m.handler.map (fun h => h reason)

/-- Apply a sequence of SetHandler calls. -/
def applySetHandlers (m : ShutdownManager) : List (Option Handler) → ShutdownManager
  | [] => m
  | h :: rest => applySetHandlers (m.SetHandler h) rest

/-- constant.ErrMissingOrgIDHeader. -/
def ErrMissingOrgIDHeader : GoError := GoError.otherError "LCS-0010"

/-- constant.ErrUnknownOrgIDHeader. -/
def ErrUnknownOrgIDHeader : GoError := GoError.otherError "LCS-0011"

/-- constant.ErrOrgLicenseInvalid, the error used for a known organization
whose license is invalid. -/
def ErrOrgLicenseInvalid : GoError := GoError.otherError "LCS-0013"

/-- middleware/client.go validateOrganizationID: empty header is a missing
error, a scope outside the configuration is the distinct unknown error, and
only known scopes reach the per-request validation. -/
def validateOrganizationID (env : Env) (cfg : List String) (s : St) (orgID : String) :
    ValidationResult × Option GoError × St :=
  if orgID = "" then (zeroResult, some ErrMissingOrgIDHeader, s)
  else if ContainsOrganizationID cfg orgID then ValidateWithOrgID env cfg s orgID
  else (zeroResult, some ErrUnknownOrgIDHeader, s)

/-- Inputs of one run of ValidateWithRetry: what each validation attempt
returns (none is success), whether the parent context is already done when
checked after attempt i, and whether a cancellation arrives during the
backoff sleep following attempt i. E abstracts the error of the wrapped
validation pass. -/
structure RetryEnv (E : Type) where
  attempt : Nat → Option E
  parentDone : Nat → Bool
  cancelDuringSleep : Nat → Bool

/-- The error ValidateWithRetry returns: a validation error, or the
cancellation error ctx.Err() observed during a backoff sleep. -/
inductive RetErr (E : Type) where
  | validation (e : E)
  | ctxCanceled
deriving DecidableEq, Repr

/-- Loop of ValidateWithRetry. i is the current attempt index, remaining
the number of loop iterations left (maxRetries minus i), backoff the
current backoff in seconds, sleeps the backoff sleeps performed so far.
Returns the final error (none on success), the number of validation
attempts made, and the sleeps. -/
def ValidateWithRetryAux {E : Type} (env : RetryEnv E) :
    Nat → Nat → Nat → List Nat → Option E → Option (RetErr E) × Nat × List Nat
  | i, 0, _, sleeps, lastErr => (lastErr.map RetErr.validation, i, sleeps)
  | i, remaining + 1, backoff, sleeps, _ =>
      match env.attempt i with
      | none => (none, i + 1, sleeps)
      | some e =>
          if env.parentDone i then (some (RetErr.validation e), i + 1, sleeps)
          else
            match remaining with
            | 0 => (some (RetErr.validation e), i + 1, sleeps)
            | _ + 1 =>
                if env.cancelDuringSleep i then
                  (some RetErr.ctxCanceled, i + 1, sleeps ++ [backoff])
                else
                  ValidateWithRetryAux env (i + 1) remaining (backoff * 2)
                    (sleeps ++ [backoff]) (some e)

/-- validation/client.go ValidateWithRetry: maxRetries is 3, the backoff
starts at 5 seconds and doubles after each sleep, sleeping only between
attempts, and a cancellation during a backoff sleep returns ctx.Err(). -/
def ValidateWithRetry {E : Type} (env : RetryEnv E) : Option (RetErr E) × Nat × List Nat :=
  ValidateWithRetryAux env 0 3 5 [] none

/-- A result is usable in the sense of the spec invariant:
valid or in an active grace period. -/
def usable (r : ValidationResult) : Bool :=
  r.valid || r.activeGracePeriod

/-- The aggregation-rule notion of a scope ending usable:
valid, in grace period, or trial. -/
def usable3 (r : ValidationResult) : Bool :=
  r.valid || r.activeGracePeriod || r.isTrial

/-- Whether an error is an APIError with a 5xx status. -/
def is5xxErr (e : GoError) : Bool :=
  match asAPIError e with
  | some p => decide (500 ≤ p.1 ∧ p.1 < 600)
  | none => false

/-- Specification of how one scope ends in the multi-org loop: the usable
verdict it contributes (its own on success, the synthetic one on a 5xx), or
none when it ends unusable. -/
def scopeVerdict (env : Env) (orgID : String) : Option ValidationResult :=
  match validateLicensePure env orgID with
  | (r, none) => if usable3 r then some r else none
  | (_, some e) => if is5xxErr e then some syntheticResult else none

/-- The verdict of the last scope found usable in configuration order. -/
def lastUsableVerdict (env : Env) (orgs : List String) : Option ValidationResult :=
  orgs.foldl
    (fun acc o => match scopeVerdict env o with | some r => some r | none => acc) none

/-- The per-scope failure entry the multi-org loop collects: the error of a
scope whose verification failed with a non-5xx error. -/
def scopeErr (env : Env) (o : String) : Option (String × GoError) :=
  match (validateLicensePure env o).2 with
  | some e => if is5xxErr e then none else some (o, e)
  | none => none

/-- All failure entries the multi-org loop collects, in order. -/
def errEntries (env : Env) (orgs : List String) : List (String × GoError) :=
  orgs.filterMap (scopeErr env)

/-- The entries a termination reason references. -/
def reasonEntries : TermReason → List (String × GoError)
  | TermReason.composite entries => entries
  | _ => []

/-- State effect of one iteration of the multi-org loop on one scope. -/
def stepState (env : Env) (s : St) (o : String) : St :=
  match validateLicensePure env o with
  | (r, none) => if usable3 r then storeC (netCallEff s o) o r else netCallEff s o
  | (_, some e) =>
      if is5xxErr e then storeC (netCallEff s o) o syntheticResult else netCallEff s o

/-- The amended store invariant: relative to an old state, every store ever
performed either predates the operation, or received a usable result, or
received the zero verdict that ValidateLicense can hand back together with
a nil error. -/
def storesDeltaOK (old new : St) : Prop :=
  ∀ p ∈ new.stores, p ∈ old.stores ∨ usable p.2 = true ∨ p.2 = zeroResult

/-- The reachability invariant behind claim C5: every cached entry belongs
to a configured organization ID (Store is only ever called with configured
IDs by the validation client). -/
def cacheKeysIn (cfg : List String) (s : St) : Prop :=
  ∀ p ∈ s.cache, p.1 ∈ cfg

/-- The refresh-manager invariant: started implies exactly one running task
with a cancel function installed; stopped implies no running task. -/
def refreshInv (m : RefreshManager) : Prop :=
  (m.started = true → m.running = 1 ∧ m.hasCancel = true) ∧
  (m.started = false → m.running = 0)

/-- A usable verdict for the witness scenarios. -/
def resAcme : ValidationResult :=
  { valid := true, expiryDaysLeft := 30, activeGracePeriod := false, isTrial := false }

/-- A state whose cache holds a verdict for scope acme. -/
def stAcme : St := { initSt with cache := [("acme", resAcme)] }

/-- A verifier with no stub installed: every network call would fail. -/
def envFail : Env := fun _ => HTTPOutcome.otherFailure "no verifier stub installed"

/-- Retry inputs for the witness: the first attempt fails, the second
succeeds, nothing is cancelled. -/
def retryEnvW : RetryEnv Nat :=
  { attempt := fun i => if i = 0 then some 7 else none,
    parentDone := fun _ => false,
    cancelDuringSleep := fun _ => false }

/-- A usable verdict stored for scope orgA in the C1 counterexample. -/
def resOrgA : ValidationResult :=
  { valid := true, expiryDaysLeft := 30, activeGracePeriod := false, isTrial := false }

/-- The authority answers 200-usable for orgA and 503 for everything else. -/
def envC1 : Env := fun o =>
  if o = "orgA" then HTTPOutcome.ok resOrgA else HTTPOutcome.httpStatus 503

/-- The state after a successful validation of orgA only. -/
def stC1 : St := (validateAndHandleForOrg envC1 initSt "orgA").2.2

/-- A usable verdict stored for scope x in the C2 counterexample. -/
def resX : ValidationResult :=
  { valid := true, expiryDaysLeft := 10, activeGracePeriod := false, isTrial := false }

/-- The authority answers 200-usable for x and 502 for everything else. -/
def envC2 : Env := fun o =>
  if o = "x" then HTTPOutcome.ok resX else HTTPOutcome.httpStatus 502

/-- The state after a successful validation of scope x only. -/
def stC2 : St := (validateAndHandleForOrg envC2 initSt "x").2.2

/-- The usable verdict of scope b in the C3 scenarios. -/
def resB3 : ValidationResult :=
  { valid := true, expiryDaysLeft := 30, activeGracePeriod := false, isTrial := false }

/-- The authority rejects scope a with 403 and accepts everything else. -/
def envC3 : Env := fun o =>
  if o = "a" then HTTPOutcome.httpStatus 403 else HTTPOutcome.ok resB3

/-- The authority accepting every scope, for the C3 witness. -/
def envB3 : Env := fun _ => HTTPOutcome.ok resB3

/-- The reason validateAllOrganizations passes to Terminate when no scope
is usable: the composite of all collected per-scope errors, or the generic
message when no scope produced an error. -/
def composedReason (env : Env) (cfg : List String) : TermReason :=
  if (errEntries env cfg).isEmpty then TermReason.noValid
  else TermReason.composite (errEntries env cfg)

/-- The authority rejects scope a with 403 and answers an error-free but
unusable verdict for everything else. -/
def envC4 : Env := fun o =>
  if o = "a" then HTTPOutcome.httpStatus 403 else HTTPOutcome.ok zeroResult

/-- The authority rejecting every scope with 403, for the C4 witness. -/
def envW4 : Env := fun _ => HTTPOutcome.httpStatus 403

/-- The authority answers 200 with a trial-flagged but unusable verdict. -/
def envC9 : Env := fun _ => HTTPOutcome.ok
  { valid := false, expiryDaysLeft := 5, activeGracePeriod := false, isTrial := true }

theorem validateLicensePure_none (env : Env) (orgID : String)
    (h : (validateLicensePure env orgID).2 = none) :
    usable (validateLicensePure env orgID).1 = true ∨
      (validateLicensePure env orgID).1 = zeroResult := by
  unfold validateLicensePure at h ⊢
  rcases hv : verifyOutcome env orgID with e | r
  · rw [hv] at h
    simp at h
  · by_cases hu : (r.valid || r.activeGracePeriod) = true
    · simp [usable, hu]
    · simp [usable, hu]

theorem allOrganizationsLoop_eq (env : Env) (orgs : List String) :
    ∀ (s : St) (anyValid : Bool) (lastValid : ValidationResult)
      (errs : List (String × GoError)),
    allOrganizationsLoop env orgs s anyValid lastValid errs =
      (orgs.foldl (stepState env) s,
       anyValid || orgs.any (fun o => (scopeVerdict env o).isSome),
       orgs.foldl
         (fun acc o => match scopeVerdict env o with | some r => r | none => acc) lastValid,
       errs ++ errEntries env orgs) := by
  induction orgs with
  | nil => intro s a l e; simp [allOrganizationsLoop, errEntries]
  | cons o rest ih =>
      intro s a l e
      rcases hp : validateLicensePure env o with ⟨r, err⟩
      cases err with
      | none =>
          by_cases hu : (r.valid || r.activeGracePeriod || r.isTrial) = true
          · have hsv : scopeVerdict env o = some r := by
              simp [scopeVerdict, hp, usable3, hu]
            have hse : scopeErr env o = none := by simp [scopeErr, hp]
            have hss : stepState env s o = storeC (netCallEff s o) o r := by
              simp [stepState, hp, usable3, hu]
            simp [allOrganizationsLoop, validateLicense, hp, hu, ih, hsv, hse, hss,
              errEntries, List.filterMap_cons]
          · have hsv : scopeVerdict env o = none := by
              simp [scopeVerdict, hp, usable3, hu]
            have hse : scopeErr env o = none := by simp [scopeErr, hp]
            have hss : stepState env s o = netCallEff s o := by
              simp [stepState, hp, usable3, hu]
            simp [allOrganizationsLoop, validateLicense, hp, hu, ih, hsv, hse, hss,
              errEntries, List.filterMap_cons]
      | some ex =>
          rcases hap : asAPIError ex with _ | ⟨code, msg⟩
          · have h5 : is5xxErr ex = false := by simp [is5xxErr, hap]
            have hsv : scopeVerdict env o = none := by simp [scopeVerdict, hp, h5]
            have hse : scopeErr env o = some (o, ex) := by simp [scopeErr, hp, h5]
            have hss : stepState env s o = netCallEff s o := by simp [stepState, hp, h5]
            simp [allOrganizationsLoop, validateLicense, hp, hap, ih, hsv, hse, hss,
              errEntries, List.filterMap_cons]
          · by_cases h5 : 500 ≤ code ∧ code < 600
            · have h5b : is5xxErr ex = true := by simp [is5xxErr, hap, h5]
              have hsv : scopeVerdict env o = some syntheticResult := by
                simp [scopeVerdict, hp, h5b]
              have hse : scopeErr env o = none := by simp [scopeErr, hp, h5b]
              have hss : stepState env s o = storeC (netCallEff s o) o syntheticResult := by
                simp [stepState, hp, h5b]
              simp [allOrganizationsLoop, validateLicense, hp, hap, h5, ih, hsv, hse, hss,
                errEntries, List.filterMap_cons]
            · have h5b : is5xxErr ex = false := by simp [is5xxErr, hap, h5]
              have hsv : scopeVerdict env o = none := by simp [scopeVerdict, hp, h5b]
              have hse : scopeErr env o = some (o, ex) := by simp [scopeErr, hp, h5b]
              have hss : stepState env s o = netCallEff s o := by simp [stepState, hp, h5b]
              simp [allOrganizationsLoop, validateLicense, hp, hap, h5, ih, hsv, hse, hss,
                errEntries, List.filterMap_cons]

theorem stepState_preserves (env : Env) (s : St) (o : String) :
    (stepState env s o).terms = s.terms ∧
    (stepState env s o).refreshShutdowns = s.refreshShutdowns := by
  unfold stepState
  rcases hp : validateLicensePure env o with ⟨r, err⟩
  cases err with
  | none =>
      by_cases hu : usable3 r = true <;> simp [hu, storeC, netCallEff]
  | some e =>
      by_cases h5 : is5xxErr e = true <;> simp [h5, storeC, netCallEff]

theorem foldl_stepState_preserves (env : Env) (orgs : List String) :
    ∀ s : St, (orgs.foldl (stepState env) s).terms = s.terms ∧
      (orgs.foldl (stepState env) s).refreshShutdowns = s.refreshShutdowns := by
  induction orgs with
  | nil => intro s; simp
  | cons o rest ih =>
      intro s
      simp only [List.foldl_cons]
      obtain ⟨h1, h2⟩ := ih (stepState env s o)
      obtain ⟨g1, g2⟩ := stepState_preserves env s o
      exact ⟨h1.trans g1, h2.trans g2⟩

theorem foldl_verdict_some (env : Env) (rest : List String) :
    ∀ a : ValidationResult,
    rest.foldl
        (fun acc o => match scopeVerdict env o with | some r => some r | none => acc)
        (some a) =
      some (rest.foldl
        (fun acc o => match scopeVerdict env o with | some r => r | none => acc) a) := by
  induction rest with
  | nil => intro a; simp
  | cons o rest ih =>
      intro a
      simp only [List.foldl_cons]
      rcases hsv : scopeVerdict env o with _ | r <;> simp [hsv, ih]

theorem lastUsableVerdict_eq_foldl (env : Env) :
    ∀ orgs : List String, orgs.any (fun o => (scopeVerdict env o).isSome) = true →
    ∀ v0 : ValidationResult,
    lastUsableVerdict env orgs =
      some (orgs.foldl
        (fun acc o => match scopeVerdict env o with | some r => r | none => acc) v0) := by
  intro orgs
  induction orgs with
  | nil => intro h; simp at h
  | cons o rest ih =>
      intro hany v0
      unfold lastUsableVerdict
      simp only [List.foldl_cons]
      rcases hsv : scopeVerdict env o with _ | r
      · have hr : rest.any (fun o => (scopeVerdict env o).isSome) = true := by
          simpa [hsv] using hany
        have h2 := ih hr v0
        unfold lastUsableVerdict at h2
        simpa [hsv] using h2
      · simp only [hsv]
        exact foldl_verdict_some env rest r

theorem storesDeltaOK_of_eq {a b : St} (h : b.stores = a.stores) : storesDeltaOK a b := by
  intro p hp
  rw [h] at hp
  exact Or.inl hp

theorem storesDeltaOK_trans {a b c : St}
    (h1 : storesDeltaOK a b) (h2 : storesDeltaOK b c) : storesDeltaOK a c := by
  intro p hp
  rcases h2 p hp with h | h | h
  · exact h1 p h
  · exact Or.inr (Or.inl h)
  · exact Or.inr (Or.inr h)

theorem storesDeltaOK_netCall (s : St) (o : String) : storesDeltaOK s (netCallEff s o) :=
  storesDeltaOK_of_eq rfl

theorem storesDeltaOK_store (s : St) (o : String) (r : ValidationResult)
    (h : usable r = true ∨ r = zeroResult) : storesDeltaOK s (storeC s o r) := by
  intro p hp
  simp only [storeC, List.mem_append, List.mem_singleton] at hp
  rcases hp with hp | hp
  · exact Or.inl hp
  · subst hp
    exact Or.inr h

theorem handleConnOrOther_stores (s : St) (e : GoError) :
    (handleConnOrOther s e).2.2.stores = s.stores := by
  unfold handleConnOrOther
  by_cases hc : isConnectionError e = true
  · rcases hl : s.lastResult with _ | r <;> simp [hc, hl]
  · simp [hc]

theorem handleAPIError_stores (s : St) (e : GoError) :
    (handleAPIError s e).2.2.stores = s.stores := by
  unfold handleAPIError
  rcases hap : asAPIError e with _ | ⟨code, msg⟩
  · exact handleConnOrOther_stores s e
  · by_cases h5 : 500 ≤ code ∧ code < 600
    · rcases hl : s.lastResult with _ | r <;> simp [h5, hl]
    · by_cases h4 : 400 ≤ code ∧ code < 500
      · simp only [if_neg h5, if_pos h4]
        rw [handleConnOrOther_stores]
        simp [terminateEff, shutdownRefreshEff]
      · simp only [if_neg h5, if_neg h4]
        exact handleConnOrOther_stores s e

theorem handleAPIErrorMultiOrg_stores (cfg : List String) (s : St) (e : GoError) :
    (handleAPIErrorMultiOrg cfg s e).2.2.stores = s.stores := by
  unfold handleAPIErrorMultiOrg
  rcases hap : asAPIError e with _ | ⟨code, msg⟩
  · exact handleConnOrOther_stores s e
  · by_cases h5 : 500 ≤ code ∧ code < 600
    · rcases hl : s.lastResult with _ | r <;> simp [h5, hl]
    · by_cases h4 : 400 ≤ code ∧ code < 500
      · by_cases hlen : cfg.length > 1
        · simp [if_neg h5, if_pos h4, hlen]
        · simp only [if_neg h5, if_pos h4, if_neg hlen]
          rw [handleConnOrOther_stores]
          simp [terminateEff, shutdownRefreshEff]
      · simp only [if_neg h5, if_neg h4]
        exact handleConnOrOther_stores s e

theorem validateAndHandleForOrg_storesOK (env : Env) (s : St) (o : String) :
    storesDeltaOK s (validateAndHandleForOrg env s o).2.2 := by
  unfold validateAndHandleForOrg validateLicense
  rcases hp : validateLicensePure env o with ⟨r, err⟩
  cases err with
  | none =>
      have husable := validateLicensePure_none env o (by rw [hp])
      rw [hp] at husable
      simp only [hp]
      exact storesDeltaOK_trans (storesDeltaOK_netCall s o)
        (storesDeltaOK_store (netCallEff s o) o r husable)
  | some e =>
      simp only [hp]
      exact storesDeltaOK_trans (storesDeltaOK_netCall s o)
        (storesDeltaOK_of_eq (handleAPIError_stores (netCallEff s o) e))

theorem validateSingleOrganization_storesOK (env : Env) (cfg : List String) (s : St) (o : String) :
    storesDeltaOK s (validateSingleOrganization env cfg s o).2.2 := by
  unfold validateSingleOrganization validateLicense
  rcases hp : validateLicensePure env o with ⟨r, err⟩
  cases err with
  | none =>
      have husable := validateLicensePure_none env o (by rw [hp])
      rw [hp] at husable
      simp only [hp]
      exact storesDeltaOK_trans (storesDeltaOK_netCall s o)
        (storesDeltaOK_store (netCallEff s o) o r husable)
  | some e =>
      simp only [hp]
      exact storesDeltaOK_trans (storesDeltaOK_netCall s o)
        (storesDeltaOK_of_eq (handleAPIErrorMultiOrg_stores cfg (netCallEff s o) e))

theorem allOrgsLoop_storesOK (env : Env) (orgs : List String) :
    ∀ (s : St) (a : Bool) (l : ValidationResult) (e : Option GoError),
      storesDeltaOK s (allOrgsLoop env orgs s a l e).1 := by
  induction orgs with
  | nil => intro s a l e; exact storesDeltaOK_of_eq rfl
  | cons o rest ih =>
      intro s a l e
      have hstep := validateAndHandleForOrg_storesOK env s o
      rcases hout : validateAndHandleForOrg env s o with ⟨r, err, s2⟩
      rw [hout] at hstep
      simp only [allOrgsLoop, hout]
      cases err with
      | none =>
          by_cases hu : (r.valid || r.activeGracePeriod || r.isTrial) = true
          · simp only [hu, if_true]
            exact storesDeltaOK_trans hstep (ih s2 true r e)
          · simp only [hu, Bool.false_eq_true, if_false]
            exact storesDeltaOK_trans hstep (ih s2 a l none)
      | some ex => exact storesDeltaOK_trans hstep (ih s2 a l (some ex))

theorem terminateEff_stores (s : St) (reason : TermReason) :
    (terminateEff (shutdownRefreshEff s) reason).stores = s.stores := by
  simp [terminateEff, shutdownRefreshEff]

theorem validateAndHandleAllOrgs_storesOK (env : Env) (cfg : List String) (s : St) :
    storesDeltaOK s (validateAndHandleAllOrgs env cfg s).2.2 := by
  unfold validateAndHandleAllOrgs
  by_cases hemp : cfg.isEmpty
  · simp only [hemp, if_true]
    exact storesDeltaOK_of_eq rfl
  · simp only [hemp, Bool.false_eq_true, if_false]
    have hloop := allOrgsLoop_storesOK env cfg s false zeroResult none
    rcases hl : allOrgsLoop env cfg s false zeroResult none with ⟨s2, a, l, e⟩
    rw [hl] at hloop
    cases a with
    | true => simpa using hloop
    | false =>
        simp only [Bool.false_eq_true, if_false]
        exact storesDeltaOK_trans hloop
          (storesDeltaOK_of_eq (terminateEff_stores s2 TermReason.noValid))

theorem ValidateWithOrgID_storesOK (env : Env) (cfg : List String) (s : St) (orgID : String) :
    storesDeltaOK s (ValidateWithOrgID env cfg s orgID).2.2 := by
  unfold ValidateWithOrgID
  by_cases hc : ContainsOrganizationID cfg orgID = true
  · simp only [hc, if_true]
    rcases hg : cacheGet s orgID with _ | r
    · exact validateAndHandleForOrg_storesOK env s orgID
    · exact storesDeltaOK_of_eq rfl
  · simp only [Bool.not_eq_true] at hc
    simp only [hc, Bool.false_eq_true, if_false]
    exact storesDeltaOK_of_eq rfl

theorem stepState_storesOK (env : Env) (s : St) (o : String) :
    storesDeltaOK s (stepState env s o) := by
  unfold stepState
  rcases hp : validateLicensePure env o with ⟨r, err⟩
  cases err with
  | none =>
      have husable := validateLicensePure_none env o (by rw [hp])
      rw [hp] at husable
      by_cases hu : usable3 r = true
      · simp only [hu, if_true]
        exact storesDeltaOK_trans (storesDeltaOK_netCall s o)
          (storesDeltaOK_store (netCallEff s o) o r husable)
      · simp only [Bool.not_eq_true] at hu
        simp only [hu, Bool.false_eq_true, if_false]
        exact storesDeltaOK_netCall s o
  | some e =>
      by_cases h5 : is5xxErr e = true
      · simp only [h5, if_true]
        exact storesDeltaOK_trans (storesDeltaOK_netCall s o)
          (storesDeltaOK_store (netCallEff s o) o syntheticResult (Or.inl rfl))
      · simp only [Bool.not_eq_true] at h5
        simp only [h5, Bool.false_eq_true, if_false]
        exact storesDeltaOK_netCall s o

theorem foldl_stepState_storesOK (env : Env) (orgs : List String) :
    ∀ s : St, storesDeltaOK s (orgs.foldl (stepState env) s) := by
  induction orgs with
  | nil => intro s; exact storesDeltaOK_of_eq rfl
  | cons o rest ih =>
      intro s
      simp only [List.foldl_cons]
      exact storesDeltaOK_trans (stepState_storesOK env s o) (ih (stepState env s o))

theorem validateAllOrganizations_storesOK (env : Env) (cfg : List String) (isGlobal : Bool)
    (s : St) : storesDeltaOK s (validateAllOrganizations env cfg isGlobal s).2.2 := by
  unfold validateAllOrganizations
  by_cases hemp : cfg.isEmpty
  · simp only [hemp, if_true]
    exact storesDeltaOK_of_eq rfl
  · simp only [hemp, Bool.false_eq_true, if_false]
    cases isGlobal with
    | true =>
        simp only [if_true]
        exact validateSingleOrganization_storesOK env cfg s GlobalPluginValue
    | false =>
        simp only [Bool.false_eq_true, if_false]
        rw [allOrganizationsLoop_eq]
        have hfold := foldl_stepState_storesOK env cfg s
        by_cases hany : (false || cfg.any fun o => (scopeVerdict env o).isSome) = true
        · simp only [hany, if_true]
          simpa using hfold
        · simp only [Bool.not_eq_true] at hany
          simp only [hany, Bool.false_eq_true, if_false]
          exact storesDeltaOK_trans hfold
            (storesDeltaOK_of_eq (terminateEff_stores _ _))

theorem assocGet_mem {l : List (String × ValidationResult)} {k : String} {v : ValidationResult} :
    assocGet l k = some v → (k, v) ∈ l := by
  induction l with
  | nil => intro h; simp [assocGet] at h
  | cons p rest ih =>
      intro h
      by_cases hk : p.1 = k
      · simp only [assocGet, hk, if_true, Option.some.injEq] at h
        subst h
        rw [← hk]
        exact List.mem_cons_self p rest
      · simp only [assocGet, hk, if_false] at h
        exact List.mem_cons_of_mem p (ih h)

theorem assocPut_mem {l : List (String × ValidationResult)} {k : String} {v : ValidationResult} :
    ∀ p ∈ assocPut l k v, p ∈ l ∨ p.1 = k := by
  induction l with
  | nil =>
      intro p hp
      simp only [assocPut, List.mem_singleton] at hp
      subst hp
      exact Or.inr rfl
  | cons q rest ih =>
      intro p hp
      by_cases hk : q.1 = k
      · simp only [assocPut, hk, if_true, List.mem_cons] at hp
        rcases hp with hp | hp
        · subst hp; exact Or.inr rfl
        · exact Or.inl (List.mem_cons_of_mem q hp)
      · simp only [assocPut, hk, if_false, List.mem_cons] at hp
        rcases hp with hp | hp
        · subst hp; exact Or.inl (List.mem_cons_self _ rest)
        · rcases ih p hp with h | h
          · exact Or.inl (List.mem_cons_of_mem q h)
          · exact Or.inr h

theorem handleConnOrOther_cache (s : St) (e : GoError) :
    (handleConnOrOther s e).2.2.cache = s.cache := by
  unfold handleConnOrOther
  by_cases hc : isConnectionError e = true
  · rcases hl : s.lastResult with _ | r <;> simp [hc, hl]
  · simp [hc]

theorem handleAPIError_cache (s : St) (e : GoError) :
    (handleAPIError s e).2.2.cache = s.cache := by
  unfold handleAPIError
  rcases hap : asAPIError e with _ | ⟨code, msg⟩
  · exact handleConnOrOther_cache s e
  · by_cases h5 : 500 ≤ code ∧ code < 600
    · rcases hl : s.lastResult with _ | r <;> simp [h5, hl]
    · by_cases h4 : 400 ≤ code ∧ code < 500
      · simp only [if_neg h5, if_pos h4]
        rw [handleConnOrOther_cache]
        simp [terminateEff, shutdownRefreshEff]
      · simp only [if_neg h5, if_neg h4]
        exact handleConnOrOther_cache s e

theorem cacheKeysIn_store {cfg : List String} {s : St} {o : String} (r : ValidationResult)
    (hinv : cacheKeysIn cfg s) (ho : o ∈ cfg) : cacheKeysIn cfg (storeC s o r) := by
  intro p hp
  simp only [storeC] at hp
  rcases assocPut_mem p hp with h | h
  · exact hinv p h
  · rw [h]; exact ho

theorem validateAndHandleForOrg_keys (env : Env) {cfg : List String} {s : St} {o : String}
    (hinv : cacheKeysIn cfg s) (ho : o ∈ cfg) :
    cacheKeysIn cfg (validateAndHandleForOrg env s o).2.2 := by
  unfold validateAndHandleForOrg validateLicense
  rcases hp : validateLicensePure env o with ⟨r, err⟩
  have hnetinv : cacheKeysIn cfg (netCallEff s o) := by
    intro p hmem
    exact hinv p hmem
  cases err with
  | none =>
      simp only [hp]
      exact cacheKeysIn_store r hnetinv ho
  | some e =>
      simp only [hp]
      intro p hmem
      rw [handleAPIError_cache] at hmem
      exact hnetinv p hmem

theorem ValidateWithOrgID_keys (env : Env) {cfg : List String} {s : St} {orgID : String}
    (hinv : cacheKeysIn cfg s) :
    cacheKeysIn cfg (ValidateWithOrgID env cfg s orgID).2.2 := by
  unfold ValidateWithOrgID
  by_cases hc : ContainsOrganizationID cfg orgID = true
  · simp only [hc, if_true]
    rcases hg : cacheGet s orgID with _ | r
    · have ho : orgID ∈ cfg := by
        simpa [ContainsOrganizationID] using hc
      exact validateAndHandleForOrg_keys env hinv ho
    · exact hinv
  · simp only [Bool.not_eq_true] at hc
    simp only [hc, Bool.false_eq_true, if_false]
    exact hinv

theorem allOrgsLoop_keys (env : Env) {cfg : List String} (orgs : List String)
    (hsub : ∀ o ∈ orgs, o ∈ cfg) :
    ∀ {s : St}, cacheKeysIn cfg s → ∀ (a : Bool) (l : ValidationResult) (e : Option GoError),
      cacheKeysIn cfg (allOrgsLoop env orgs s a l e).1 := by
  induction orgs with
  | nil => intro s hinv a l e; exact hinv
  | cons o rest ih =>
      intro s hinv a l e
      have ho : o ∈ cfg := hsub o (List.mem_cons_self o rest)
      have hsub2 : ∀ x ∈ rest, x ∈ cfg := fun x hx => hsub x (List.mem_cons_of_mem o hx)
      have hstep := validateAndHandleForOrg_keys env hinv ho
      rcases hout : validateAndHandleForOrg env s o with ⟨r, err, s2⟩
      rw [hout] at hstep
      simp only [allOrgsLoop, hout]
      cases err with
      | none =>
          by_cases hu : (r.valid || r.activeGracePeriod || r.isTrial) = true
          · simp only [hu, if_true]
            exact ih hsub2 hstep true r e
          · simp only [hu, Bool.false_eq_true, if_false]
            exact ih hsub2 hstep a l none
      | some ex => exact ih hsub2 hstep a l (some ex)

theorem validateAndHandleAllOrgs_keys (env : Env) {cfg : List String} {s : St}
    (hinv : cacheKeysIn cfg s) :
    cacheKeysIn cfg (validateAndHandleAllOrgs env cfg s).2.2 := by
  unfold validateAndHandleAllOrgs
  by_cases hemp : cfg.isEmpty
  · simp only [hemp, if_true]
    exact hinv
  · simp only [hemp, Bool.false_eq_true, if_false]
    have hloop := allOrgsLoop_keys env cfg (fun o ho => ho) hinv false zeroResult none
    rcases hl : allOrgsLoop env cfg s false zeroResult none with ⟨s2, a, l, e⟩
    rw [hl] at hloop
    cases a with
    | true => simpa using hloop
    | false =>
        simp only [Bool.false_eq_true, if_false]
        intro p hp
        simp only [terminateEff, shutdownRefreshEff] at hp
        exact hloop p hp

theorem refreshInv_new : refreshInv RefreshManager.new := by
  constructor <;> intro h <;> simp [RefreshManager.new] at h ⊢

theorem refreshInv_start {m : RefreshManager} (h : refreshInv m) : refreshInv m.Start := by
  unfold RefreshManager.Start
  by_cases hs : m.started = true
  · simpa [hs] using h
  · simp only [Bool.not_eq_true] at hs
    simp only [hs, Bool.false_eq_true, if_false]
    refine ⟨fun _ => ?_, fun hc => ?_⟩
    · exact ⟨by simp [h.2 hs], rfl⟩
    · simp at hc

theorem refreshInv_shutdown {m : RefreshManager} (h : refreshInv m) : refreshInv m.Shutdown := by
  unfold RefreshManager.Shutdown
  by_cases hs : m.started = true
  · simp only [hs, if_true]
    refine ⟨fun hc => ?_, fun _ => ?_⟩
    · simp at hc
    · simp [(h.1 hs).1]
  · simp only [Bool.not_eq_true] at hs
    simpa [hs] using h

theorem refreshInv_run (ops : List RefreshOp) :
    ∀ m : RefreshManager, refreshInv m → refreshInv (runRefreshOps m ops) := by
  induction ops with
  | nil => intro m h; exact h
  | cons op rest ih =>
      intro m h
      cases op with
      | start => exact ih m.Start (refreshInv_start h)
      | shutdown => exact ih m.Shutdown (refreshInv_shutdown h)

theorem RefreshManager_Start_started (m : RefreshManager) : m.Start.started = true := by
  unfold RefreshManager.Start
  by_cases hs : m.started = true <;> simp [hs]

theorem RefreshManager_Shutdown_started (m : RefreshManager) :
    m.Shutdown.started = false := by
  unfold RefreshManager.Shutdown
  by_cases hs : m.started = true
  · simp [hs]
  · simp only [Bool.not_eq_true] at hs
    simp [hs]

theorem applySetHandlers_isSome (ops : List (Option Handler)) :
    ∀ m : ShutdownManager, m.handler.isSome = true →
      (applySetHandlers m ops).handler.isSome = true := by
  induction ops with
  | nil => intro m h; exact h
  | cons o rest ih =>
      intro m h
      cases o with
      | none => exact ih m h
      | some f => exact ih _ (by simp [ShutdownManager.SetHandler])

/-- Claim C10: the termination manager is constructed with the default
handler installed, SetHandler called with a nil handler is a no-op leaving
the current handler unchanged, and therefore after any sequence of
SetHandler calls the handler slot is never nil and Terminate(reason)
invokes the installed handler with that reason. -/
theorem Terminate_handler_installed (ops : List (Option Handler)) (reason : String) :
    ShutdownManager.new.handler = some DefaultHandler ∧
    (∀ m : ShutdownManager, m.SetHandler none = m) ∧
    (applySetHandlers ShutdownManager.new ops).handler.isSome = true ∧
    ∃ h : Handler,
      (applySetHandlers ShutdownManager.new ops).Terminate reason = some (h reason) := by
  refine ⟨rfl, fun m => rfl, applySetHandlers_isSome ops _ rfl, ?_⟩
  rcases hh : (applySetHandlers ShutdownManager.new ops).handler with _ | h
  · have hs := applySetHandlers_isSome ops ShutdownManager.new rfl
    rw [hh] at hs
    simp at hs
  · exact ⟨h, by simp [ShutdownManager.Terminate, hh]⟩

theorem Start_of_started {m : RefreshManager} (h : m.started = true) : m.Start = m := by
  unfold RefreshManager.Start
  simp [h]

theorem Shutdown_of_stopped {m : RefreshManager} (h : m.started = false) : m.Shutdown = m := by
  unfold RefreshManager.Shutdown
  simp [h]

/-- Claim C7: the background refresher is idempotent in both directions.
After any call sequence from a fresh manager, Start leaves exactly one
running refresh task and a second Start is a no-op; Shutdown on a
non-started manager (in particular before any Start, or as the second of
two consecutive Shutdowns) leaves the state unchanged, performing no
cancellation. -/
theorem StartShutdown_idempotent (ops : List RefreshOp) :
    ((runRefreshOps RefreshManager.new ops).Start).running = 1 ∧
    ((runRefreshOps RefreshManager.new ops).Start).Start =
      (runRefreshOps RefreshManager.new ops).Start ∧
    ((runRefreshOps RefreshManager.new ops).started = false →
      (runRefreshOps RefreshManager.new ops).Shutdown =
        runRefreshOps RefreshManager.new ops) ∧
    ((runRefreshOps RefreshManager.new ops).Shutdown).Shutdown =
      (runRefreshOps RefreshManager.new ops).Shutdown ∧
    RefreshManager.new.Shutdown = RefreshManager.new := by
  have hinv := refreshInv_run ops RefreshManager.new refreshInv_new
  refine ⟨?_, Start_of_started (RefreshManager_Start_started _),
    fun h => Shutdown_of_stopped h,
    Shutdown_of_stopped (RefreshManager_Shutdown_started _),
    Shutdown_of_stopped rfl⟩
  by_cases hs : (runRefreshOps RefreshManager.new ops).started = true
  · rw [Start_of_started hs]
    exact (hinv.1 hs).1
  · simp only [Bool.not_eq_true] at hs
    unfold RefreshManager.Start
    simp [hs, hinv.2 hs]

/-- Witness for claim C7: on the fresh manager (no Start yet), Shutdown is
a no-op. -/
theorem StartShutdown_idempotent_witness :
    (runRefreshOps RefreshManager.new []).started = false ∧
    (runRefreshOps RefreshManager.new []).Shutdown = runRefreshOps RefreshManager.new [] :=
  ⟨rfl, (StartShutdown_idempotent []).2.2.1 rfl⟩

/-- Claim C5: for a scope with a (non-expired) cache entry, the
per-request validation returns the cached value exactly and leaves the
state unchanged — in particular it performs no network call. The
cacheKeysIn hypothesis is the reachability invariant (proved preserved by
ValidateWithOrgID_keys and validateAndHandleAllOrgs_keys) that cached
scopes are configured scopes. -/
theorem ValidateWithOrgID_cache_hit (env : Env) (cfg : List String) (s : St) (orgID : String)
    (r : ValidationResult) (hinv : cacheKeysIn cfg s) (hget : cacheGet s orgID = some r) :
    ValidateWithOrgID env cfg s orgID = (r, none, s) := by
  have hmem : (orgID, r) ∈ s.cache := assocGet_mem hget
  have ho : orgID ∈ cfg := hinv (orgID, r) hmem
  have hc : ContainsOrganizationID cfg orgID = true := by
    simp [ContainsOrganizationID]
    exact ho
  unfold ValidateWithOrgID
  simp [hc, hget]

/-- Witness for claim C5: with acme cached, the per-request validation
returns the cached verdict and does not touch the failing verifier. -/
theorem ValidateWithOrgID_cache_hit_witness :
    cacheGet stAcme "acme" = some resAcme ∧
    ValidateWithOrgID envFail ["acme"] stAcme "acme" = (resAcme, none, stAcme) := by
  refine ⟨by decide, ?_⟩
  exact ValidateWithOrgID_cache_hit envFail ["acme"] stAcme "acme" resAcme
    (by
      intro p hp
      have hps : p = ("acme", resAcme) := by simpa [stAcme, initSt] using hp
      rw [hps]
      simp)
    (by decide)

/-- Claim C8: a scope identifier outside the configured list is rejected by
the per-request path with the unknown-scope error, which is distinct from
the missing-header error and from the invalid-license error; the state is
returned unchanged, so no verification call, no termination, and no cache
mutation happens. -/
theorem validateOrganizationID_unknown (env : Env) (cfg : List String) (s : St)
    (orgID : String) (hne : orgID ≠ "") (hnc : orgID ∉ cfg) :
    validateOrganizationID env cfg s orgID = (zeroResult, some ErrUnknownOrgIDHeader, s) ∧
    ErrUnknownOrgIDHeader ≠ ErrMissingOrgIDHeader ∧
    ErrUnknownOrgIDHeader ≠ ErrOrgLicenseInvalid := by
  have hc : ContainsOrganizationID cfg orgID = false := by
    simp [ContainsOrganizationID]
    exact hnc
  refine ⟨?_, by decide, by decide⟩
  unfold validateOrganizationID
  simp [hne, hc]

/-- Witness for claim C8 at a concrete unknown scope. -/
theorem validateOrganizationID_unknown_witness :
    "intruder" ≠ "" ∧ "intruder" ∉ ["acme"] ∧
    validateOrganizationID envFail ["acme"] stAcme "intruder" =
      (zeroResult, some ErrUnknownOrgIDHeader, stAcme) :=
  ⟨by decide, by decide,
   (validateOrganizationID_unknown envFail ["acme"] stAcme "intruder"
      (by decide) (by decide)).1⟩

theorem ValidateWithRetry_cases {E : Type} (env : RetryEnv E) :
    (ValidateWithRetry env).2.1 ≤ 3 ∧
    (ValidateWithRetry env).2.2 = List.take (ValidateWithRetry env).2.2.length [5, 10] := by
  unfold ValidateWithRetry
  rcases h0 : env.attempt 0 with _ | e0
  · simp [ValidateWithRetryAux, h0]
  · cases hp0 : env.parentDone 0 with
    | true => simp [ValidateWithRetryAux, h0, hp0]
    | false =>
        cases hc0 : env.cancelDuringSleep 0 with
        | true => simp [ValidateWithRetryAux, h0, hp0, hc0]
        | false =>
            rcases h1 : env.attempt 1 with _ | e1
            · simp [ValidateWithRetryAux, h0, hp0, hc0, h1]
            · cases hp1 : env.parentDone 1 with
              | true => simp [ValidateWithRetryAux, h0, hp0, hc0, h1, hp1]
              | false =>
                  cases hc1 : env.cancelDuringSleep 1 with
                  | true => simp [ValidateWithRetryAux, h0, hp0, hc0, h1, hp1, hc1]
                  | false =>
                      rcases h2 : env.attempt 2 with _ | e2 <;>
                        simp [ValidateWithRetryAux, h0, hp0, hc0, h1, hp1, hc1, h2]

/-- Claim C6: ValidateWithRetry makes at most 3 validation attempts; its
backoff sleeps are a prefix of the sequence 5s, 10s (starting at 5 seconds
and doubling after each attempt); a success at any reached attempt returns
immediately with no error and no further sleeps; and a cancellation during
either backoff sleep returns the context cancellation error, not the last
validation error. -/
theorem ValidateWithRetry_spec {E : Type} (env : RetryEnv E) :
    (ValidateWithRetry env).2.1 ≤ 3 ∧
    (ValidateWithRetry env).2.2 = List.take (ValidateWithRetry env).2.2.length [5, 10] ∧
    (env.attempt 0 = none → ValidateWithRetry env = (none, 1, [])) ∧
    (∀ e0, env.attempt 0 = some e0 → env.parentDone 0 = false →
      env.cancelDuringSleep 0 = false → env.attempt 1 = none →
      ValidateWithRetry env = (none, 2, [5])) ∧
    (∀ e0 e1, env.attempt 0 = some e0 → env.parentDone 0 = false →
      env.cancelDuringSleep 0 = false → env.attempt 1 = some e1 →
      env.parentDone 1 = false → env.cancelDuringSleep 1 = false →
      env.attempt 2 = none → ValidateWithRetry env = (none, 3, [5, 10])) ∧
    (∀ e0, env.attempt 0 = some e0 → env.parentDone 0 = false →
      env.cancelDuringSleep 0 = true →
      ValidateWithRetry env = (some RetErr.ctxCanceled, 1, [5])) ∧
    (∀ e0 e1, env.attempt 0 = some e0 → env.parentDone 0 = false →
      env.cancelDuringSleep 0 = false → env.attempt 1 = some e1 →
      env.parentDone 1 = false → env.cancelDuringSleep 1 = true →
      ValidateWithRetry env = (some RetErr.ctxCanceled, 2, [5, 10])) := by
  refine ⟨(ValidateWithRetry_cases env).1, (ValidateWithRetry_cases env).2, ?_, ?_, ?_, ?_, ?_⟩
  · intro h0
    simp [ValidateWithRetry, ValidateWithRetryAux, h0]
  · intro e0 h0 hp0 hc0 h1
    simp [ValidateWithRetry, ValidateWithRetryAux, h0, hp0, hc0, h1]
  · intro e0 e1 h0 hp0 hc0 h1 hp1 hc1 h2
    simp [ValidateWithRetry, ValidateWithRetryAux, h0, hp0, hc0, h1, hp1, hc1, h2]
  · intro e0 h0 hp0 hc0
    simp [ValidateWithRetry, ValidateWithRetryAux, h0, hp0, hc0]
  · intro e0 e1 h0 hp0 hc0 h1 hp1 hc1
    simp [ValidateWithRetry, ValidateWithRetryAux, h0, hp0, hc0, h1, hp1, hc1]

/-- Witness for claim C6: with one failure then success, the retry wrapper
returns success after 2 attempts and one 5-second sleep. -/
theorem ValidateWithRetry_spec_witness :
    retryEnvW.attempt 0 = some 7 ∧ retryEnvW.parentDone 0 = false ∧
    retryEnvW.cancelDuringSleep 0 = false ∧ retryEnvW.attempt 1 = none ∧
    ValidateWithRetry retryEnvW = (none, 2, [5]) :=
  ⟨rfl, rfl, rfl, rfl,
   (ValidateWithRetry_spec retryEnvW).2.2.2.1 7 rfl rfl rfl rfl⟩

theorem handleAPIError_5xx (s : St) (code : Nat) (msg : String)
    (h5 : 500 ≤ code ∧ code < 600) :
    handleAPIError s (GoError.apiError code msg) =
      match s.lastResult with
      | some r => (r, none, s)
      | none => (syntheticResult, none, s) := by
  unfold handleAPIError
  simp [asAPIError, h5]

theorem validateForOrg_httpStatus (env : Env) (s : St) (orgID : String) (code : Nat)
    (henv : env orgID = HTTPOutcome.httpStatus code) :
    validateAndHandleForOrg env s orgID =
      handleAPIError (netCallEff s orgID) (handleErrorResponse code) := by
  unfold validateAndHandleForOrg validateLicense validateLicensePure verifyOutcome
  rw [henv]

theorem storeC_lastResult (s : St) (o : String) (r : ValidationResult) :
    (storeC s o r).lastResult = some r := rfl

/-- Claim C1 (amended): when the verifier answers 5xx for a scope and no
successful result was ever stored for ANY scope (the single shared
fallback slot is empty), the validation returns the synthetic verdict
valid=true, activeGracePeriod=true, expiryDaysLeft=7 with no error. The
original per-scope reading is refuted by the counterexample
validateForOrg_serverError_crossScope_fallback. -/
theorem validateForOrg_serverError_synthetic (env : Env) (s : St) (orgID : String)
    (code : Nat) (henv : env orgID = HTTPOutcome.httpStatus code)
    (h5l : 500 ≤ code) (h5r : code < 600) (hnone : s.lastResult = none) :
    validateAndHandleForOrg env s orgID = (syntheticResult, none, netCallEff s orgID) ∧
    syntheticResult.valid = true ∧ syntheticResult.activeGracePeriod = true ∧
    syntheticResult.expiryDaysLeft = FallbackExpiryDaysLeft := by
  have h5 : 500 ≤ code ∧ code < 600 := ⟨h5l, h5r⟩
  have hh : handleErrorResponse code =
      GoError.apiError code ("server error: " ++ toString code) := by
    unfold handleErrorResponse
    rw [if_pos h5]
  refine ⟨?_, rfl, rfl, rfl⟩
  rw [validateForOrg_httpStatus env s orgID code henv, hh, handleAPIError_5xx _ _ _ h5]
  simp [netCallEff, hnone]

/-- Counterexample to claim C1 as stated: no successful result was ever
stored for scope orgB (only orgA appears in the store trace), and the
verifier fails for orgB with the server error 503, yet the validation
returns the result stored for orgA — not the synthetic verdict the claim
requires. The fallback slot is shared across scopes. -/
theorem validateForOrg_serverError_crossScope_fallback :
    stC1.stores.map Prod.fst = ["orgA"] ∧
    envC1 "orgB" = HTTPOutcome.httpStatus 503 ∧
    (validateAndHandleForOrg envC1 stC1 "orgB").2.1 = none ∧
    (validateAndHandleForOrg envC1 stC1 "orgB").1 = resOrgA ∧
    ¬ (validateAndHandleForOrg envC1 stC1 "orgB").1 = syntheticResult := by decide

/-- Witness for claim C1 (amended): concrete 5xx with an empty fallback
slot yields the synthetic verdict. -/
theorem validateForOrg_serverError_synthetic_witness :
    (fun _ => HTTPOutcome.httpStatus 503 : Env) "solo" = HTTPOutcome.httpStatus 503 ∧
    initSt.lastResult = none ∧
    validateAndHandleForOrg (fun _ => HTTPOutcome.httpStatus 503) initSt "solo" =
      (syntheticResult, none, netCallEff initSt "solo") :=
  ⟨rfl, rfl,
   (validateForOrg_serverError_synthetic (fun _ => HTTPOutcome.httpStatus 503) initSt "solo"
      503 rfl (by decide) (by decide) rfl).1⟩

/-- Claim C2 (amended): the last-known-good fallback slot is a single slot
shared by all scopes, holding the most recently stored result from ANY
scope (storeC_lastResult); on a 5xx the validation returns exactly that
slot value when it is non-empty — in particular exactly R when R was the
most recent successful store, whichever scope it belonged to. The
per-scope reading is refuted by fallback_slot_not_per_scope. -/
theorem validateForOrg_serverError_fallback_lastStored (env : Env) (s : St)
    (orgID : String) (code : Nat) (R : ValidationResult)
    (henv : env orgID = HTTPOutcome.httpStatus code)
    (h5l : 500 ≤ code) (h5r : code < 600) (hlast : s.lastResult = some R) :
    validateAndHandleForOrg env s orgID = (R, none, netCallEff s orgID) ∧
    (∀ (s2 : St) (o2 : String) (r2 : ValidationResult),
      (storeC s2 o2 r2).lastResult = some r2) := by
  have h5 : 500 ≤ code ∧ code < 600 := ⟨h5l, h5r⟩
  have hh : handleErrorResponse code =
      GoError.apiError code ("server error: " ++ toString code) := by
    unfold handleErrorResponse
    rw [if_pos h5]
  refine ⟨?_, fun s2 o2 r2 => rfl⟩
  rw [validateForOrg_httpStatus env s orgID code henv, hh, handleAPIError_5xx _ _ _ h5]
  simp [netCallEff, hlast]

/-- Counterexample to claim C2 as stated: the fallback slot is not per
scope. No successful verdict was ever stored for scope y, so a per-scope
slot would be empty for y and the claim requires the no-fallback behavior;
instead the 5xx validation of y returns the result stored for x. -/
theorem fallback_slot_not_per_scope :
    stC2.stores.map Prod.fst = ["x"] ∧
    envC2 "y" = HTTPOutcome.httpStatus 502 ∧
    (validateAndHandleForOrg envC2 stC2 "y").1 = resX ∧
    resX ≠ syntheticResult ∧
    (validateAndHandleForOrg envC2 stC2 "y").2.1 = none := by decide

/-- Witness for claim C2 (amended): after storing R for scope x, a 5xx for
the same scope x returns exactly R. -/
theorem validateForOrg_serverError_fallback_witness :
    stC2.lastResult = some resX ∧
    (validateAndHandleForOrg (fun _ => HTTPOutcome.httpStatus 502) stC2 "x") =
      (resX, none, netCallEff stC2 "x") :=
  ⟨by decide,
   (validateForOrg_serverError_fallback_lastStored (fun _ => HTTPOutcome.httpStatus 502)
      stC2 "x" 502 resX rfl (by decide) (by decide) (by decide)).1⟩

/-- Claim C3 (amended): in multi-scope mode, the error-collecting variant
validateAllOrganizations succeeds whenever at least one configured scope
ends usable: it returns the verdict of the last scope found usable in
configuration order, with no error, no termination, and no refresher
shutdown, regardless of how many other scopes failed with ClientError or
unusable results. The current validateAndHandleAllOrgs variant violates
the no-termination part of the claim: on a 4xx for one scope it invokes
the Termination Manager even when another scope is usable (counterexample
validateAndHandleAllOrgs_terminates_on_4xx). -/
theorem validateAllOrganizations_any_usable (env : Env) (cfg : List String) (s : St)
    (hany : cfg.any (fun o => (scopeVerdict env o).isSome) = true) :
    some (validateAllOrganizations env cfg false s).1 = lastUsableVerdict env cfg ∧
    (validateAllOrganizations env cfg false s).2.1 = none ∧
    (validateAllOrganizations env cfg false s).2.2.terms = s.terms ∧
    (validateAllOrganizations env cfg false s).2.2.refreshShutdowns = s.refreshShutdowns := by
  have hempty : cfg.isEmpty = false := by
    cases cfg with
    | nil => simp at hany
    | cons a l => rfl
  unfold validateAllOrganizations
  rw [allOrganizationsLoop_eq]
  simp only [hempty, Bool.false_eq_true, if_false, Bool.false_or, hany, if_true]
  exact ⟨(lastUsableVerdict_eq_foldl env cfg hany zeroResult).symm, trivial,
    (foldl_stepState_preserves env cfg s).1, (foldl_stepState_preserves env cfg s).2⟩

/-- Counterexample to claim C3 as stated, on validateAndHandleAllOrgs (the
current variant, also cited by the claim): scope b ends usable and the
call indeed returns b's verdict with no error, but the Termination Manager
was invoked (once, by scope a's ClientError) and the refresher was shut
down — the claim requires no termination at all. -/
theorem validateAndHandleAllOrgs_terminates_on_4xx :
    usable3 resB3 = true ∧
    (validateAndHandleAllOrgs envC3 ["a", "b"] initSt).1 = resB3 ∧
    (validateAndHandleAllOrgs envC3 ["a", "b"] initSt).2.1 = none ∧
    (validateAndHandleAllOrgs envC3 ["a", "b"] initSt).2.2.terms =
      [TermReason.clientError "client error: 403"] ∧
    (validateAndHandleAllOrgs envC3 ["a", "b"] initSt).2.2.refreshShutdowns = 1 := by
  decide

/-- Witness for claim C3 (amended) at a concrete configuration. -/
theorem validateAllOrganizations_any_usable_witness :
    (["w"].any fun o => (scopeVerdict envB3 o).isSome) = true ∧
    some (validateAllOrganizations envB3 ["w"] false initSt).1 =
      lastUsableVerdict envB3 ["w"] ∧
    (validateAllOrganizations envB3 ["w"] false initSt).2.1 = none :=
  ⟨by decide,
   (validateAllOrganizations_any_usable envB3 ["w"] initSt (by decide)).1,
   (validateAllOrganizations_any_usable envB3 ["w"] initSt (by decide)).2.1⟩

/-- Claim C4 (amended): when no configured scope ends usable,
validateAllOrganizations shuts down the Background Refresher and invokes
the Termination Manager exactly once, with one composed message; the
message references every scope that failed WITH AN ERROR, paired with that
error, but a scope whose verification succeeded with an error-free
unusable verdict contributes no entry (and when no scope produced an error
the generic no-valid-licenses message is used instead): the every-failing-
scope reading is refuted by composedReason_omits_errorFree_scope. -/
theorem validateAllOrganizations_none_usable (env : Env) (cfg : List String) (s : St)
    (hne : cfg ≠ []) (hnone : ∀ o ∈ cfg, scopeVerdict env o = none) :
    (validateAllOrganizations env cfg false s).2.2.terms =
      s.terms ++ [composedReason env cfg] ∧
    (validateAllOrganizations env cfg false s).2.2.refreshShutdowns =
      s.refreshShutdowns + 1 ∧
    (validateAllOrganizations env cfg false s).2.1 =
      some (GoError.otherError (renderReason (composedReason env cfg))) ∧
    (∀ o ∈ cfg, ∀ p, scopeErr env o = some p →
      p ∈ reasonEntries (composedReason env cfg)) := by
  have hempty : cfg.isEmpty = false := by
    cases cfg with
    | nil => exact absurd rfl hne
    | cons a l => rfl
  have hanyf : cfg.any (fun o => (scopeVerdict env o).isSome) = false := by
    rw [List.any_eq_false]
    intro o ho
    simp [hnone o ho]
  unfold validateAllOrganizations
  rw [allOrganizationsLoop_eq]
  simp only [hempty, Bool.false_eq_true, if_false, Bool.false_or, hanyf, List.nil_append]
  refine ⟨?_, ?_, ?_, ?_⟩
  · simp only [terminateEff, shutdownRefreshEff, composedReason]
    rw [(foldl_stepState_preserves env cfg s).1]
  · simp only [terminateEff, shutdownRefreshEff]
    rw [(foldl_stepState_preserves env cfg s).2]
  · simp [composedReason]
  · intro o ho p hp
    have hmem : p ∈ errEntries env cfg := List.mem_filterMap.mpr ⟨o, ho, hp⟩
    have hie : (errEntries env cfg).isEmpty = false := by
      rcases he : errEntries env cfg with _ | ⟨q, l⟩
      · rw [he] at hmem
        simp at hmem
      · rfl
    simp only [composedReason, hie, Bool.false_eq_true, if_false, reasonEntries]
    exact hmem

/-- Counterexample to claim C4 as stated: both configured scopes fail (a
with a ClientError, b with an error-free unusable verdict) and termination
happens exactly once, but the composed message references only scope a;
the failing scope b appears nowhere in it. -/
theorem composedReason_omits_errorFree_scope :
    scopeVerdict envC4 "a" = none ∧
    scopeVerdict envC4 "b" = none ∧
    (validateAllOrganizations envC4 ["a", "b"] false initSt).2.2.terms =
      [TermReason.composite [("a", GoError.apiError 403 "client error: 403")]] ∧
    ¬ "b" ∈ (reasonEntries (TermReason.composite
        [("a", GoError.apiError 403 "client error: 403")])).map Prod.fst := by
  decide

/-- Witness for claim C4 (amended) at a concrete configuration. -/
theorem validateAllOrganizations_none_usable_witness :
    (["w"] ≠ ([] : List String)) ∧
    (∀ o ∈ ["w"], scopeVerdict envW4 o = none) ∧
    (validateAllOrganizations envW4 ["w"] false initSt).2.2.terms =
      initSt.terms ++ [composedReason envW4 ["w"]] :=
  ⟨by decide, by decide,
   (validateAllOrganizations_none_usable envW4 ["w"] initSt (by decide) (by decide)).1⟩

/-- Claim C9 (amended): on every orchestrator code path, each result ever
passed to the cache Store is either usable (valid or in grace period) —
which covers successful verdicts and the synthetic 5xx fallback — or the
zero verdict that ValidateLicense returns together with a nil error when a
200 answer carries an unusable verdict; Store is never invoked with a raw
error state. The unqualified only-usable invariant is refuted by
store_receives_unusable_zero. -/
theorem store_only_usable_amended (env : Env) (cfg : List String) (s : St)
    (orgID : String) (isGlobal : Bool) :
    storesDeltaOK s (ValidateWithOrgID env cfg s orgID).2.2 ∧
    storesDeltaOK s (validateAndHandleAllOrgs env cfg s).2.2 ∧
    storesDeltaOK s (validateAllOrganizations env cfg isGlobal s).2.2 :=
  ⟨ValidateWithOrgID_storesOK env cfg s orgID,
   validateAndHandleAllOrgs_storesOK env cfg s,
   validateAllOrganizations_storesOK env cfg isGlobal s⟩

/-- Counterexample to claim C9 as stated: a 200 answer whose verdict is
unusable makes ValidateLicense return the zero verdict with a nil error,
and validateAndHandleForOrg passes that unusable zero verdict to Store. -/
theorem store_receives_unusable_zero :
    (validateAndHandleForOrg envC9 initSt "solo").2.2.stores = [("solo", zeroResult)] ∧
    usable zeroResult = false ∧
    ¬ (∀ p ∈ (validateAndHandleForOrg envC9 initSt "solo").2.2.stores,
        usable p.2 = true) := by
  decide

/-- Witness for claim C9 (amended), applied to the concrete store that the
multi-org run of the C3 scenario performs for scope b. -/
theorem store_only_usable_amended_witness :
    ("b", resB3) ∈ initSt.stores ∨ usable resB3 = true ∨ resB3 = zeroResult :=
  (store_only_usable_amended envC3 ["a", "b"] initSt "a" false).2.1
    ("b", resB3) (by decide)
